import Mathlib

/-!
Verification of the tic-tac-toe logic in `main.py` (Graphical-Tic-Tac-Toe).

The Python program stores the game grid as a 3x3 list of lists whose entries
start out as the integer placeholders 0..8 and are overwritten with the
players' marker strings as moves are made.  We embed the grid as a total
function `Fin 3 → Fin 3 → Cell`, where `Cell` distinguishes the integer
placeholders from marker strings exactly as Python's dynamic typing does
(an `int` never compares equal to a `str`).

Python operations that can raise (list indexing with an out-of-range index,
`None // 3`) are modelled with `Option`: `none` is a raised exception.
Python's `//` and `%` on ints agree with `Int.ediv` / `Int.emod` for the
positive divisor 3, which is the only divisor the program uses.
-/

/-- A value stored in one cell of `game_board`: either the integer placeholder
left from `Board.__init__` or a player's marker string. -/
inductive Cell where
  | num (n : Nat)
  | mark (s : String)
deriving DecidableEq, Repr

/-- The 3x3 grid `self.game_board`, row-major. -/
def Board := Fin 3 → Fin 3 → Cell

instance : DecidableEq Board :=
  fun b1 b2 => Fintype.decidablePiFintype b1 b2

/-- Python's membership test `cell in ('X', 'O')` (an int is never equal to a
string, so placeholder cells test false). -/
def cellIsXO (c : Cell) : Bool :=
  decide (c = Cell.mark "X") || decide (c = Cell.mark "O")

/-- A cell holds some marker string (the spec's notion of a "filled"/marked
cell, as opposed to an empty placeholder). -/
def isMark (c : Cell) : Bool :=
  match c with
  | Cell.num _ => false
  | Cell.mark _ => true

/-- Assignment `self.game_board[i][j] = v`. -/
def setCell (b : Board) (i j : Fin 3) (v : Cell) : Board :=
  fun r c => if r = i ∧ c = j then v else b r c

/-- Read of `board[p // 3][p % 3]` for a flattened position `p`; for the
positions 0..8 used by the program this is exactly the source's indexing
(the extra `% 3` only makes the function total on all of `Nat`). -/
def cellAtN (b : Board) (p : Nat) : Cell :=
  b ⟨p / 3 % 3, by omega⟩ ⟨p % 3, by omega⟩

/-- The `Player` class: marker string, human flag, GUI colour. -/
structure Player where
  marker : String
  is_human : Bool
  colour : String
deriving DecidableEq, Repr

/-- `human = Player('X', True, '#8E44AD')` from `__main__`. -/
def human : Player := ⟨"X", true, "#8E44AD"⟩

/-- `computer = Player('O', False, '#3498DB')` from `__main__`. -/
def computer : Player := ⟨"O", false, "#3498DB"⟩

/-- The list `players = [human, computer]` from `__main__`. -/
def players (i : Fin 2) : Player :=
  if i = 0 then human else computer

/-- `self.game_board = [[0, 1, 2], [3, 4, 5], [6, 7, 8]]` from
`Board.__init__`. -/
def initial_game_board : Board :=
  fun i j => Cell.num (3 * i.val + j.val)

/-- The `other_mark` computation at the top of `find_winning_move`:
starts as `''`, then two successive (non-elif) `if` statements. -/
def other_mark (mark : String) : String :=
  let om := ""
  let om := if mark = "X" then "O" else om
  if mark = "O" then "X" else om

/-- One line scan of `find_winning_move`, for a line with cells
`(c0, c1, c2)` at flattened positions `(p0, p1, p2)`:

    if c0 == mark:
        if c1 == mark and c2 != other_mark: return p2
        if c2 == mark and c1 != other_mark: return p1
    if c0 != other_mark:
        if c1 == mark and c2 == mark: return p0

(the horizontal, vertical and the two diagonal blocks of the source all
have exactly this shape). -/
def scan_line (mark om : String) (c0 c1 c2 : Cell) (p0 p1 p2 : Nat) : Option Nat :=
  if c0 = Cell.mark mark ∧ c1 = Cell.mark mark ∧ c2 ≠ Cell.mark om then some p2
  else if c0 = Cell.mark mark ∧ c2 = Cell.mark mark ∧ c1 ≠ Cell.mark om then some p1
  else if c0 ≠ Cell.mark om ∧ c1 = Cell.mark mark ∧ c2 = Cell.mark mark then some p0
  else none

/-- `find_winning_move(player, board)`: scans rows 0,1,2, then columns 0,1,2,
then the main diagonal, then the anti-diagonal, returning at the first hit;
falling off the end returns Python's implicit `None`. -/
def find_winning_move (p : Player) (b : Board) : Option Nat :=
  (scan_line p.marker (other_mark p.marker) (b 0 0) (b 0 1) (b 0 2) 0 1 2).orElse fun _ =>
  (scan_line p.marker (other_mark p.marker) (b 1 0) (b 1 1) (b 1 2) 3 4 5).orElse fun _ =>
  (scan_line p.marker (other_mark p.marker) (b 2 0) (b 2 1) (b 2 2) 6 7 8).orElse fun _ =>
  (scan_line p.marker (other_mark p.marker) (b 0 0) (b 1 0) (b 2 0) 0 3 6).orElse fun _ =>
  (scan_line p.marker (other_mark p.marker) (b 0 1) (b 1 1) (b 2 1) 1 4 7).orElse fun _ =>
  (scan_line p.marker (other_mark p.marker) (b 0 2) (b 1 2) (b 2 2) 2 5 8).orElse fun _ =>
  (scan_line p.marker (other_mark p.marker) (b 0 0) (b 1 1) (b 2 2) 0 4 8).orElse fun _ =>
  scan_line p.marker (other_mark p.marker) (b 0 2) (b 1 1) (b 2 0) 2 4 6

/-- The free-position scan of rules 3 and 5 of `get_computer_move`:
`for position in ps: if board[position//3][position%3] not in ('X','O'):
move = position; break`. -/
def scanFree (b : Board) (ps : List Nat) : Option Nat :=
  ps.findSome? fun p => if cellIsXO (cellAtN b p) then none else some p

/-- `Player.get_computer_move(self, board, other_player)`: the five-rule
priority chain (win, block, corner 0/2/6/8, center 4, side 1/3/5/7); each
rule runs only `if move is None`. -/
def get_computer_move (self : Player) (board : Board) (other_player : Player) : Option Nat :=
  (find_winning_move self board).orElse fun _ =>
  (find_winning_move other_player board).orElse fun _ =>
  (scanFree board [0, 2, 6, 8]).orElse fun _ =>
  (if cellIsXO (board 1 1) then none else some 4).orElse fun _ =>
  scanFree board [1, 3, 5, 7]

/-- One early-return line check of `is_winner`:
`if c0 == mark: if c1 == mark and c2 == mark: return True`. -/
def line_won (mark c0 c1 c2 : Cell) : Bool :=
  decide (c0 = mark) && decide (c1 = mark) && decide (c2 = mark)

/-- `Board.is_winner(player)`: the three row checks, three column checks and
two diagonal checks, in source order, each an early `return True`. -/
def is_winner (p : Player) (b : Board) : Bool :=
  line_won (Cell.mark p.marker) (b 0 0) (b 0 1) (b 0 2) ||
  line_won (Cell.mark p.marker) (b 1 0) (b 1 1) (b 1 2) ||
  line_won (Cell.mark p.marker) (b 2 0) (b 2 1) (b 2 2) ||
  line_won (Cell.mark p.marker) (b 0 0) (b 1 0) (b 2 0) ||
  line_won (Cell.mark p.marker) (b 0 1) (b 1 1) (b 2 1) ||
  line_won (Cell.mark p.marker) (b 0 2) (b 1 2) (b 2 2) ||
  line_won (Cell.mark p.marker) (b 0 0) (b 1 1) (b 2 2) ||
  line_won (Cell.mark p.marker) (b 0 2) (b 1 1) (b 2 0)

/-- `Board.is_tie()`: `all([x in ('X','O') for row in self.game_board for x in row])`. -/
def is_tie (b : Board) : Bool :=
  cellIsXO (b 0 0) && cellIsXO (b 0 1) && cellIsXO (b 0 2) &&
  cellIsXO (b 1 0) && cellIsXO (b 1 1) && cellIsXO (b 1 2) &&
  cellIsXO (b 2 0) && cellIsXO (b 2 1) && cellIsXO (b 2 2)

/-- `Board.game_has_ended()`: winner check for both players, then tie. -/
def game_has_ended (b : Board) : Bool :=
  is_winner (players 0) b || is_winner (players 1) b || is_tie b

/-- Python indexing into a 3-element list with an arbitrary int index:
0..2 directly, -3..-1 wrap from the end, anything else raises `IndexError`
(modelled as `none`). -/
def pyIdx3 (q : Int) : Option (Fin 3) :=
  if h : 0 ≤ q ∧ q < 3 then some ⟨q.toNat, by omega⟩
  else if h2 : -3 ≤ q ∧ q < 0 then some ⟨(q + 3).toNat, by omega⟩
  else none

/-- `Board.is_position_valid(position)`:

    return self.game_board[position // 3][position % 3] not in ('X', 'O')
           and 0 <= position <= 8

The row indexing `game_board[position // 3]` happens before the range check,
so it can raise `IndexError` (`none`); the inner index `position % 3` is
always in 0..2. -/
def is_position_valid (b : Board) (position : Int) : Option Bool :=
  match pyIdx3 (position / 3) with
  | none => none
  | some i =>
    some ((!cellIsXO (b i ⟨(position % 3).toNat, by omega⟩)) &&
          decide (0 ≤ position ∧ position ≤ 8))

/-- The grid mutation of `Board.make_move`:
`self.game_board[position // 3][position % 3] = player.marker`
(same Python indexing semantics as `is_position_valid`). -/
def make_move_board (b : Board) (position : Int) (mark : String) : Option Board :=
  match pyIdx3 (position / 3) with
  | none => none
  | some i =>
    some (setCell b i ⟨(position % 3).toNat, by omega⟩ (Cell.mark mark))

/-- The mutable state the game logic touches: the grid plus the class
variable `Board.turn`. -/
structure State where
  board : Board
  turn : Fin 2
deriving DecidableEq

/-- `Board.make_move(position, player)` for `player = players[idx]`: set the
cell, then return early on win (either player) or tie; only otherwise flip
`Board.turn` (to 0 after `players[1]` moved, to 1 after `players[0]`). -/
def make_move (s : State) (position : Int) (idx : Fin 2) : Option State :=
  match make_move_board s.board position (players idx).marker with
  | none => none
  | some b2 =>
    if is_winner (players 0) b2 then some ⟨b2, s.turn⟩
    else if is_winner (players 1) b2 then some ⟨b2, s.turn⟩
    else if is_tie b2 then some ⟨b2, s.turn⟩
    else some ⟨b2, if idx = 1 then 0 else 1⟩

/-- `Board.pressed(position)`: ignore the click if the game has ended or the
position is invalid; otherwise move for the human (`players[0]`), and if the
game goes on and `Board.turn == 1`, compute and make the computer's move
(`None // 3` on a full board would raise, hence `none`). -/
def pressed (s : State) (position : Int) : Option State :=
  if game_has_ended s.board then some s
  else
    match is_position_valid s.board position with
    | none => none
    | some false => some s
    | some true =>
      match make_move s position 0 with
      | none => none
      | some s1 =>
        if game_has_ended s1.board then some s1
        else if s1.turn = 1 then
          match get_computer_move (players 1) s1.board (players 0) with
          | none => none
          | some mv => make_move s1 (Int.ofNat mv) 1
        else some s1

/-- The spec's `GameOutcome`: InProgress, Win(player), or Tie. -/
inductive GameOutcome where
  | inProgress
  | win (i : Fin 2)
  | tie
deriving DecidableEq, Repr

/-- The spec's `outcome()`, read off the grid in the order the code checks
terminal conditions in `make_move` / `game_has_ended`: `players[0]` win,
then `players[1]` win, then tie, else in progress. -/
def outcome (b : Board) : GameOutcome :=
  if is_winner (players 0) b then GameOutcome.win 0
  else if is_winner (players 1) b then GameOutcome.win 1
  else if is_tie b then GameOutcome.tie
  else GameOutcome.inProgress

/-- The state produced by `Board.__init__` when the random `Board.turn` is 1:
the computer (`players[1]`) immediately computes and makes its move. -/
def init_state1 : Option State :=
  match get_computer_move (players 1) initial_game_board (players 0) with
  | none => none
  | some mv => make_move ⟨initial_game_board, 1⟩ (Int.ofNat mv) 1

/-- States reachable in the running program: either initial state (the coin
flip of `Board.turn` picks 0 or 1), then any sequence of `pressed` clicks. -/
inductive Reachable : State → Prop where
  | init0 : Reachable ⟨initial_game_board, 0⟩
  | init1 (s : State) : init_state1 = some s → Reachable s
  | step (s : State) (p : Int) (s2 : State) :
      Reachable s → pressed s p = some s2 → Reachable s2

/-- The cell coordinates of the 8 lines, in the order `is_winner` and
`find_winning_move` scan them: rows 0,1,2, columns 0,1,2, main diagonal,
anti-diagonal. -/
def lineTriple (l : Fin 8) : (Fin 3 × Fin 3) × (Fin 3 × Fin 3) × (Fin 3 × Fin 3) :=
  match l.val with
  | 0 => ((0, 0), (0, 1), (0, 2))
  | 1 => ((1, 0), (1, 1), (1, 2))
  | 2 => ((2, 0), (2, 1), (2, 2))
  | 3 => ((0, 0), (1, 0), (2, 0))
  | 4 => ((0, 1), (1, 1), (2, 1))
  | 5 => ((0, 2), (1, 2), (2, 2))
  | 6 => ((0, 0), (1, 1), (2, 2))
  | _ => ((0, 2), (1, 1), (2, 0))

/-- The three cells of a line, as a set. -/
def lineSet (l : Fin 8) : Finset (Fin 3 × Fin 3) :=
  {(lineTriple l).1, (lineTriple l).2.1, (lineTriple l).2.2}

/-- The spec's "completed line of three identical markers": all three cells
of line `l` hold the same marker string. -/
def lineIdentical (b : Board) (l : Fin 8) : Bool :=
  isMark (b (lineTriple l).1.1 (lineTriple l).1.2) &&
  decide (b (lineTriple l).1.1 (lineTriple l).1.2 =
          b (lineTriple l).2.1.1 (lineTriple l).2.1.2) &&
  decide (b (lineTriple l).2.1.1 (lineTriple l).2.1.2 =
          b (lineTriple l).2.2.1 (lineTriple l).2.2.2)

/-- The spec's "a line of three identical markers exists". -/
def specHasLine (b : Board) : Bool :=
  decide (∃ l : Fin 8, lineIdentical b l = true)

/-- The spec's "all 9 cells are filled" (every cell holds a marker). -/
def specFull (b : Board) : Bool :=
  isMark (b 0 0) && isMark (b 0 1) && isMark (b 0 2) &&
  isMark (b 1 0) && isMark (b 1 1) && isMark (b 1 2) &&
  isMark (b 2 0) && isMark (b 2 1) && isMark (b 2 2)

/-- Number of lines that are completed in `b2` but were not completed in
`b`: the lines that "become completed as a result of" the move `b → b2`. -/
def numNewComplete (b b2 : Board) : Nat :=
  (Finset.univ.filter fun l : Fin 8 =>
    lineIdentical b2 l = true ∧ lineIdentical b l = false).card

/-- Number of cells of `b` holding marker `m`. -/
def countMark (b : Board) (m : String) : Nat :=
  (Finset.univ.filter fun c : Fin 3 × Fin 3 => b c.1 c.2 = Cell.mark m).card

/-- Every cell is either one of the two configured markers or unmarked
(a leftover placeholder): the shape of any grid of the running game. -/
def WellFormed (b : Board) : Prop :=
  ∀ i j, b i j = Cell.mark "X" ∨ b i j = Cell.mark "O" ∨ isMark (b i j) = false

instance (b : Board) : Decidable (WellFormed b) := by
  unfold WellFormed
  infer_instance

/-- The precise grid invariant of the running game: an unplayed cell still
holds its distinct integer placeholder from `Board.__init__`. -/
def GridInv (b : Board) : Prop :=
  ∀ i j, b i j = Cell.num (3 * i.val + j.val) ∨
    b i j = Cell.mark "X" ∨ b i j = Cell.mark "O"

instance (b : Board) : Decidable (GridInv b) := by
  unfold GridInv
  infer_instance

/-- Marker of the side to move in an abstract alternating game:
`true` plays "X", `false` plays "O". -/
def markerOf (t : Bool) : String :=
  if t then "X" else "O"

/-- Boards reachable by legal alternating play, using the code's own
legality checks: either side may start (the coin flip), and each move
requires the game not ended and `is_position_valid` to accept the position
before the cell is overwritten with the mover's marker. -/
inductive LegalPlay : Board → Bool → Prop where
  | start (t : Bool) : LegalPlay initial_game_board t
  | move (b : Board) (t : Bool) (p : Int) (b2 : Board) :
      LegalPlay b t → game_has_ended b = false →
      is_position_valid b p = some true →
      make_move_board b p (markerOf t) = some b2 →
      LegalPlay b2 (!t)

/-- A board holding marker `m` on all three cells of line `l` and the
untouched placeholders everywhere else. -/
def lineBoard (l : Fin 8) (m : String) : Board :=
  fun i j => if (i, j) ∈ lineSet l then Cell.mark m else Cell.num (3 * i.val + j.val)

/-- A player distinguished only by its marker (neither `is_winner` nor
`find_winning_move` reads the other fields). -/
def playerWithMarker (m : String) : Player := ⟨m, true, ""⟩

/-- Line `l` would let `m` win next move: two cells of the line already hold
`m` and the third is empty. -/
def twoAndEmpty (m : String) (c0 c1 c2 : Cell) : Prop :=
  (c0 = Cell.mark m ∧ c1 = Cell.mark m ∧ isMark c2 = false) ∨
  (c0 = Cell.mark m ∧ c2 = Cell.mark m ∧ isMark c1 = false) ∨
  (c1 = Cell.mark m ∧ c2 = Cell.mark m ∧ isMark c0 = false)

/-- The board contains an empty cell that would block an immediate win of
the player with marker `m`: some line has two `m` cells and an empty third. -/
def BlockExists (m : String) (b : Board) : Prop :=
  ∃ l : Fin 8,
    twoAndEmpty m (b (lineTriple l).1.1 (lineTriple l).1.2)
      (b (lineTriple l).2.1.1 (lineTriple l).2.1.2)
      (b (lineTriple l).2.2.1 (lineTriple l).2.2.2)

instance (m : String) (c0 c1 c2 : Cell) : Decidable (twoAndEmpty m c0 c1 c2) := by
  unfold twoAndEmpty
  infer_instance

instance (m : String) (b : Board) : Decidable (BlockExists m b) := by
  unfold BlockExists
  infer_instance

/-- A board where O holds cells 0 and 1 of the top row and cell 2 is empty:
O threatens an immediate win through the top row. -/
def blockBoard : Board :=
  setCell (setCell initial_game_board 0 0 (Cell.mark "O")) 0 1 (Cell.mark "O")

/-- The spec's rule-priority test grid `[X,X,_, O,O,_, _,_,_]`. -/
def ruleGrid : Board :=
  setCell (setCell (setCell (setCell initial_game_board
    0 0 (Cell.mark "X")) 0 1 (Cell.mark "X")) 1 0 (Cell.mark "O")) 1 1 (Cell.mark "O")

/-- A board on which X has already completed the top row. -/
def wonBoard : Board :=
  setCell (setCell (setCell initial_game_board
    0 0 (Cell.mark "X")) 0 1 (Cell.mark "X")) 0 2 (Cell.mark "X")

/-- A board whose cell (0,0) was marked by a player using marker "A". -/
def boardA : Board := setCell initial_game_board 0 0 (Cell.mark "A")

/-- Board after legal alternating moves X1, O4, X2, O5, X3, O7, X6, O8
(flattened positions): X holds {1,2,3,6}, O holds {4,5,7,8}, X to move. -/
def cb8 : Board :=
  setCell (setCell (setCell (setCell (setCell (setCell (setCell (setCell
    initial_game_board
    0 1 (Cell.mark "X")) 1 1 (Cell.mark "O")) 0 2 (Cell.mark "X"))
    1 2 (Cell.mark "O")) 1 0 (Cell.mark "X")) 2 1 (Cell.mark "O"))
    2 0 (Cell.mark "X")) 2 2 (Cell.mark "O")

/-- `cb8` after X's legal move at position 0: the move completes both the
top row and the left column at once. -/
def cb9 : Board := setCell cb8 0 0 (Cell.mark "X")

/-! ## Helper lemmas -/

theorem orElse_eq_some_cases {α : Type} {a : Option α} {f : Unit → Option α} {x : α}
    (h : a.orElse f = some x) : a = some x ∨ (a = none ∧ f () = some x) := by
  cases a with
  | none => exact Or.inr ⟨rfl, h⟩
  | some y => exact Or.inl h

theorem orElse_isSome_right {α : Type} {a : Option α} {f : Unit → Option α}
    (h : (f ()).isSome = true) : (a.orElse f).isSome = true := by
  cases a with
  | none => exact h
  | some y => rfl

theorem pyIdx3_eq_some_pos (q : Int) (h0 : 0 ≤ q) (h3 : q < 3) :
    pyIdx3 q = some ⟨q.toNat, by omega⟩ := by
  unfold pyIdx3
  rw [dif_pos ⟨h0, h3⟩]

theorem pyIdx3_eq_some_neg (q : Int) (h0 : -3 ≤ q) (h3 : q < 0) :
    pyIdx3 q = some ⟨(q + 3).toNat, by omega⟩ := by
  unfold pyIdx3
  rw [dif_neg (by omega), dif_pos ⟨h0, h3⟩]

theorem pyIdx3_eq_none (q : Int) (h : q ≤ -4 ∨ 3 ≤ q) : pyIdx3 q = none := by
  unfold pyIdx3
  rw [dif_neg (by omega), dif_neg (by omega)]

/-! ## C7: win detection on each of the 8 lines -/

/-- C7: for every one of the 8 lines (3 rows, 3 columns, 2 diagonals) and
either marker, the grid holding that marker on all three cells of the line
and placeholders elsewhere makes `is_winner` return `True` for the player
with that marker and `False` for the player with the other marker. -/
theorem C7_win_detection : ∀ (l : Fin 8) (t : Bool),
    is_winner (playerWithMarker (markerOf t)) (lineBoard l (markerOf t)) = true ∧
    is_winner (playerWithMarker (markerOf (!t))) (lineBoard l (markerOf t)) = false := by
  decide

/-! ## C8: rule priority on the spec's test grid -/

/-- C8: on the grid `[X,X,_, O,O,_, _,_,_]` with X acting, rule 1 (the
immediate-win scan `find_winning_move(self, board)`) already returns 2, and
`get_computer_move` therefore returns 2. -/
theorem C8_rule_priority :
    find_winning_move human ruleGrid = some 2 ∧
    get_computer_move human ruleGrid computer = some 2 := by
  decide

/-! ## C1: out-of-range positions -/

/-- C1 counterexample: at position 9 the validity check does not return
`False`; the row indexing `game_board[9 // 3]` raises `IndexError` first
(modelled as `none`). -/
theorem C1_counterexample : is_position_valid initial_game_board 9 = none := by
  decide

/-- C1 (amended): the validity check never accepts an out-of-range position,
but it is not total: positions -9..-1 return `False` (Python's negative
indices resolve and the range check fails), while positions ≥ 9 or ≤ -10
raise `IndexError` instead of returning. -/
theorem C1_amended (b : Board) (position : Int) (h : position < 0 ∨ 8 < position) :
    is_position_valid b position =
      if -9 ≤ position ∧ position ≤ -1 then some false else none := by
  by_cases h1 : -9 ≤ position ∧ position ≤ -1
  · rw [if_pos h1]
    unfold is_position_valid
    rw [pyIdx3_eq_some_neg (position / 3) (by omega) (by omega)]
    have hdec : decide (0 ≤ position ∧ position ≤ 8) = false := by
      simp only [decide_eq_false_iff_not]
      omega
    simp [hdec]
  · rw [if_neg h1]
    unfold is_position_valid
    rw [pyIdx3_eq_none (position / 3) (by omega)]

/-- C1 witness: at the concrete out-of-range position -5 the amended theorem
evaluates to `some false`. -/
theorem C1_witness : is_position_valid initial_game_board (-5) = some false := by
  have h := C1_amended initial_game_board (-5) (Or.inl (by norm_num))
  simpa using h

/-! ## C2: occupied-cell refusal and its dependence on the 'X'/'O' markers -/

/-- C2 counterexample: with a marker other than 'X'/'O' (here "A"), a cell
just marked by that player still passes the validity check, because
`is_position_valid` tests membership in the hard-coded tuple `('X', 'O')`:
the repeated move on cell 0 is accepted, not refused. -/
theorem C2_counterexample :
    make_move_board initial_game_board 0 "A" = some boardA ∧
    is_position_valid boardA 0 = some true := by
  decide

/-- C2 (amended): provided the player's marker is one of the configured
'X'/'O', a cell that has just been marked fails the validity check on any
later attempt, regardless of which player attempts it (the check reads only
the board). -/
theorem C2_amended (b : Board) (p : Int) (m : String) (b2 : Board)
    (hm : m = "X" ∨ m = "O") (h : make_move_board b p m = some b2) :
    is_position_valid b2 p = some false := by
  unfold make_move_board at h
  cases hq : pyIdx3 (p / 3) with
  | none => rw [hq] at h; cases h
  | some i =>
    rw [hq] at h
    injection h with h
    subst h
    unfold is_position_valid
    rw [hq]
    rcases hm with rfl | rfl <;> simp [setCell, cellIsXO]

/-- C2 witness: the amended theorem applied to marking cell 0 with 'X' on the
fresh board. -/
theorem C2_witness :
    is_position_valid (setCell initial_game_board 0 0 (Cell.mark "X")) 0 = some false := by
  have h := C2_amended initial_game_board 0 "X"
    (setCell initial_game_board 0 0 (Cell.mark "X")) (Or.inl rfl) (by decide)
  simpa using h

/-! ## C9: invalid clicks are silent no-ops -/

set_option maxHeartbeats 1000000 in
/-- C9: a click on an in-range but occupied cell, or any click once the game
has ended, leaves the state (grid and turn) exactly unchanged; `pressed`
returns normally rather than raising. -/
theorem C9_noop (s : State) (p : Int)
    (h : game_has_ended s.board = true ∨
      (0 ≤ p ∧ p ≤ 8 ∧ cellIsXO (cellAtN s.board p.toNat) = true)) :
    pressed s p = some s := by
  rcases h with hend | ⟨h0, h8, hocc⟩
  · unfold pressed
    rw [if_pos hend]
  · cases hge : game_has_ended s.board with
    | true =>
      unfold pressed
      rw [if_pos hge]
    | false =>
      have hocc2 : cellIsXO (s.board ⟨(p / 3).toNat, by omega⟩ ⟨(p % 3).toNat, by omega⟩)
          = true := by
        have e1 : (⟨(p / 3).toNat, by omega⟩ : Fin 3) = ⟨p.toNat / 3 % 3, by omega⟩ := by
          apply Fin.ext
          show (p / 3).toNat = p.toNat / 3 % 3
          omega
        have e2 : (⟨(p % 3).toNat, by omega⟩ : Fin 3) = ⟨p.toNat % 3, by omega⟩ := by
          apply Fin.ext
          show (p % 3).toNat = p.toNat % 3
          omega
        rw [e1, e2]
        unfold cellAtN at hocc
        exact hocc
      have hv : is_position_valid s.board p = some false := by
        unfold is_position_valid
        rw [pyIdx3_eq_some_pos (p / 3) (by omega) (by omega)]
        simp [hocc2]
      unfold pressed
      rw [hge, hv]
      rfl

/-! ## Soundness of the line scans of `find_winning_move` -/

theorem cellAtN_eval_0 (b : Board) : cellAtN b 0 = b 0 0 := rfl

theorem cellAtN_eval_1 (b : Board) : cellAtN b 1 = b 0 1 := rfl

theorem cellAtN_eval_2 (b : Board) : cellAtN b 2 = b 0 2 := rfl

theorem cellAtN_eval_3 (b : Board) : cellAtN b 3 = b 1 0 := rfl

theorem cellAtN_eval_4 (b : Board) : cellAtN b 4 = b 1 1 := rfl

theorem cellAtN_eval_5 (b : Board) : cellAtN b 5 = b 1 2 := rfl

theorem cellAtN_eval_6 (b : Board) : cellAtN b 6 = b 2 0 := rfl

theorem cellAtN_eval_7 (b : Board) : cellAtN b 7 = b 2 1 := rfl

theorem cellAtN_eval_8 (b : Board) : cellAtN b 8 = b 2 2 := rfl

theorem line_won_false {mark c0 c1 c2 : Cell} (h : line_won mark c0 c1 c2 = false) :
    ¬(c0 = mark ∧ c1 = mark ∧ c2 = mark) := by
  rintro ⟨h0, h1, h2⟩
  simp [line_won, h0, h1, h2] at h

/-- If a line is not already fully `mark`, any position a `scan_line` returns
carries a cell that is neither `mark` nor `om`. -/
theorem scan_line_sound {mark om : String} {c0 c1 c2 : Cell} {p0 p1 p2 q : Nat}
    (hnc : ¬(c0 = Cell.mark mark ∧ c1 = Cell.mark mark ∧ c2 = Cell.mark mark))
    (h : scan_line mark om c0 c1 c2 p0 p1 p2 = some q) :
    (q = p0 ∧ c0 ≠ Cell.mark mark ∧ c0 ≠ Cell.mark om) ∨
    (q = p1 ∧ c1 ≠ Cell.mark mark ∧ c1 ≠ Cell.mark om) ∨
    (q = p2 ∧ c2 ≠ Cell.mark mark ∧ c2 ≠ Cell.mark om) := by
  unfold scan_line at h
  split_ifs at h with h1 h2 h3
  · injection h with h
    subst h
    refine Or.inr (Or.inr ⟨rfl, ?_, h1.2.2⟩)
    intro hc
    exact hnc ⟨h1.1, h1.2.1, hc⟩
  · injection h with h
    subst h
    refine Or.inr (Or.inl ⟨rfl, ?_, h2.2.2⟩)
    intro hc
    exact hnc ⟨h2.1, hc, h2.2.1⟩
  · injection h with h
    subst h
    refine Or.inl ⟨rfl, ?_, h3.1⟩
    intro hc
    exact hnc ⟨hc, h3.2.1, h3.2.2⟩

/-- If `player` has no completed line, any position `find_winning_move`
returns is in range and its cell holds neither the player's marker nor the
computed `other_mark`. -/
theorem fwm_sound (p : Player) (b : Board) (q : Nat)
    (hw : is_winner p b = false)
    (h : find_winning_move p b = some q) :
    q < 9 ∧ cellAtN b q ≠ Cell.mark p.marker ∧
      cellAtN b q ≠ Cell.mark (other_mark p.marker) := by
  unfold is_winner at hw
  simp only [Bool.or_eq_false_iff] at hw
  obtain ⟨⟨⟨⟨⟨⟨⟨w1, w2⟩, w3⟩, w4⟩, w5⟩, w6⟩, w7⟩, w8⟩ := hw
  unfold find_winning_move at h
  rcases orElse_eq_some_cases h with h | ⟨-, h⟩
  · rcases scan_line_sound (line_won_false w1) h with ⟨rfl, hm, ho⟩ | ⟨rfl, hm, ho⟩ | ⟨rfl, hm, ho⟩ <;>
      exact ⟨by norm_num, by simpa [cellAtN_eval_0, cellAtN_eval_1, cellAtN_eval_2] using hm,
        by simpa [cellAtN_eval_0, cellAtN_eval_1, cellAtN_eval_2] using ho⟩
  rcases orElse_eq_some_cases h with h | ⟨-, h⟩
  · rcases scan_line_sound (line_won_false w2) h with ⟨rfl, hm, ho⟩ | ⟨rfl, hm, ho⟩ | ⟨rfl, hm, ho⟩ <;>
      exact ⟨by norm_num, by simpa [cellAtN_eval_3, cellAtN_eval_4, cellAtN_eval_5] using hm,
        by simpa [cellAtN_eval_3, cellAtN_eval_4, cellAtN_eval_5] using ho⟩
  rcases orElse_eq_some_cases h with h | ⟨-, h⟩
  · rcases scan_line_sound (line_won_false w3) h with ⟨rfl, hm, ho⟩ | ⟨rfl, hm, ho⟩ | ⟨rfl, hm, ho⟩ <;>
      exact ⟨by norm_num, by simpa [cellAtN_eval_6, cellAtN_eval_7, cellAtN_eval_8] using hm,
        by simpa [cellAtN_eval_6, cellAtN_eval_7, cellAtN_eval_8] using ho⟩
  rcases orElse_eq_some_cases h with h | ⟨-, h⟩
  · rcases scan_line_sound (line_won_false w4) h with ⟨rfl, hm, ho⟩ | ⟨rfl, hm, ho⟩ | ⟨rfl, hm, ho⟩ <;>
      exact ⟨by norm_num, by simpa [cellAtN_eval_0, cellAtN_eval_3, cellAtN_eval_6] using hm,
        by simpa [cellAtN_eval_0, cellAtN_eval_3, cellAtN_eval_6] using ho⟩
  rcases orElse_eq_some_cases h with h | ⟨-, h⟩
  · rcases scan_line_sound (line_won_false w5) h with ⟨rfl, hm, ho⟩ | ⟨rfl, hm, ho⟩ | ⟨rfl, hm, ho⟩ <;>
      exact ⟨by norm_num, by simpa [cellAtN_eval_1, cellAtN_eval_4, cellAtN_eval_7] using hm,
        by simpa [cellAtN_eval_1, cellAtN_eval_4, cellAtN_eval_7] using ho⟩
  rcases orElse_eq_some_cases h with h | ⟨-, h⟩
  · rcases scan_line_sound (line_won_false w6) h with ⟨rfl, hm, ho⟩ | ⟨rfl, hm, ho⟩ | ⟨rfl, hm, ho⟩ <;>
      exact ⟨by norm_num, by simpa [cellAtN_eval_2, cellAtN_eval_5, cellAtN_eval_8] using hm,
        by simpa [cellAtN_eval_2, cellAtN_eval_5, cellAtN_eval_8] using ho⟩
  rcases orElse_eq_some_cases h with h | ⟨-, h⟩
  · rcases scan_line_sound (line_won_false w7) h with ⟨rfl, hm, ho⟩ | ⟨rfl, hm, ho⟩ | ⟨rfl, hm, ho⟩ <;>
      exact ⟨by norm_num, by simpa [cellAtN_eval_0, cellAtN_eval_4, cellAtN_eval_8] using hm,
        by simpa [cellAtN_eval_0, cellAtN_eval_4, cellAtN_eval_8] using ho⟩
  rcases scan_line_sound (line_won_false w8) h with ⟨rfl, hm, ho⟩ | ⟨rfl, hm, ho⟩ | ⟨rfl, hm, ho⟩ <;>
    exact ⟨by norm_num, by simpa [cellAtN_eval_2, cellAtN_eval_4, cellAtN_eval_6] using hm,
      by simpa [cellAtN_eval_2, cellAtN_eval_4, cellAtN_eval_6] using ho⟩

/-- On a well-formed board, if the scanned player (marker 'X' or 'O') has no
completed line, a position returned by `find_winning_move` is a genuinely
empty cell. -/
theorem fwm_returns_free (p : Player) (b : Board) (q : Nat)
    (hwf : WellFormed b) (hm : p.marker = "X" ∨ p.marker = "O")
    (hw : is_winner p b = false) (hq : find_winning_move p b = some q) :
    q < 9 ∧ isMark (cellAtN b q) = false := by
  obtain ⟨hq9, hne1, hne2⟩ := fwm_sound p b q hw hq
  refine ⟨hq9, ?_⟩
  have hwf2 := hwf ⟨q / 3 % 3, by omega⟩ ⟨q % 3, by omega⟩
  unfold cellAtN at hne1 hne2 ⊢
  rcases hm with hm | hm
  · rw [hm] at hne1 hne2
    have hom : other_mark "X" = "O" := rfl
    rw [hom] at hne2
    rcases hwf2 with h | h | h
    · exact absurd h hne1
    · exact absurd h hne2
    · exact h
  · rw [hm] at hne1 hne2
    have hom : other_mark "O" = "X" := rfl
    rw [hom] at hne2
    rcases hwf2 with h | h | h
    · exact absurd h hne2
    · exact absurd h hne1
    · exact h

/-! ## C10: `find_winning_move` and occupied cells -/

/-- C10: on a well-formed board where the scanned player has not already won,
every position `find_winning_move` returns is an empty cell; and without that
precondition the guarantee fails: on a board where X already holds the whole
top row, `find_winning_move` returns position 2, which is occupied by X, so
`get_computer_move` on that terminal board returns an occupied position. -/
theorem C10_fwm_empty :
    (∀ (p : Player) (b : Board) (q : Nat), WellFormed b →
      (p.marker = "X" ∨ p.marker = "O") → is_winner p b = false →
      find_winning_move p b = some q → q < 9 ∧ isMark (cellAtN b q) = false) ∧
    (is_winner human wonBoard = true ∧ find_winning_move human wonBoard = some 2 ∧
      isMark (cellAtN wonBoard 2) = true ∧ game_has_ended wonBoard = true ∧
      get_computer_move human wonBoard computer = some 2) := by
  constructor
  · exact fun p b q hwf hm hw hq => fwm_returns_free p b q hwf hm hw hq
  · decide

/-- C10 witness: the universal half applied to the concrete rule-priority
grid, where X has not yet won and the returned cell 2 is empty. -/
theorem C10_witness : 2 < 9 ∧ isMark (cellAtN ruleGrid 2) = false :=
  C10_fwm_empty.1 human ruleGrid 2 (by decide) (Or.inl rfl) (by decide) (by decide)

theorem orElse_some_eval {α : Type} (a : α) (f : Unit → Option α) :
    (some a).orElse f = some a := rfl

theorem orElse_none_eval {α : Type} (f : Unit → Option α) :
    (none : Option α).orElse f = f () := rfl

/-- A cell that fails the `('X','O')` membership test on a well-formed board
is genuinely unmarked. -/
theorem wf_free (b : Board) (q : Nat) (hwf : WellFormed b)
    (h : cellIsXO (cellAtN b q) = false) : isMark (cellAtN b q) = false := by
  have hq := hwf ⟨q / 3 % 3, by omega⟩ ⟨q % 3, by omega⟩
  unfold cellAtN at h ⊢
  rcases hq with h1 | h1 | h1
  · rw [h1] at h
    simp [cellIsXO] at h
  · rw [h1] at h
    simp [cellIsXO] at h
  · exact h1

/-! ## C5: the five rules are exhaustive on a non-full, non-terminal grid -/

/-- C5: on any well-formed, non-terminal, non-full grid, `get_computer_move`
returns a position in 0..8 whose cell is empty, whichever of the two players
is acting. -/
theorem C5_exhaustive (self other : Player) (b : Board)
    (hp : (self = human ∧ other = computer) ∨ (self = computer ∧ other = human))
    (hwf : WellFormed b)
    (hw0 : is_winner human b = false) (hw1 : is_winner computer b = false)
    (ht : is_tie b = false) :
    ∃ q, get_computer_move self b other = some q ∧ q < 9 ∧
      isMark (cellAtN b q) = false := by
  have hws : is_winner self b = false := by
    rcases hp with ⟨rfl, -⟩ | ⟨rfl, -⟩ <;> assumption
  have hwo : is_winner other b = false := by
    rcases hp with ⟨-, rfl⟩ | ⟨-, rfl⟩ <;> assumption
  have hms : self.marker = "X" ∨ self.marker = "O" := by
    rcases hp with ⟨rfl, -⟩ | ⟨rfl, -⟩
    · exact Or.inl rfl
    · exact Or.inr rfl
  have hmo : other.marker = "X" ∨ other.marker = "O" := by
    rcases hp with ⟨-, rfl⟩ | ⟨-, rfl⟩
    · exact Or.inr rfl
    · exact Or.inl rfl
  unfold get_computer_move
  cases h1 : find_winning_move self b with
  | some q =>
    obtain ⟨hq9, hfree⟩ := fwm_returns_free self b q hwf hms hws h1
    exact ⟨q, by rw [orElse_some_eval], hq9, hfree⟩
  | none =>
  rw [orElse_none_eval]
  cases h2 : find_winning_move other b with
  | some q =>
    obtain ⟨hq9, hfree⟩ := fwm_returns_free other b q hwf hmo hwo h2
    exact ⟨q, by rw [orElse_some_eval], hq9, hfree⟩
  | none =>
  rw [orElse_none_eval]
  cases hc0 : cellIsXO (cellAtN b 0) with
  | false =>
    refine ⟨0, ?_, by norm_num, wf_free b 0 hwf hc0⟩
    have hs : scanFree b [0, 2, 6, 8] = some 0 := by
      simp [scanFree, List.findSome?, hc0]
    rw [hs, orElse_some_eval]
  | true =>
  cases hc2 : cellIsXO (cellAtN b 2) with
  | false =>
    refine ⟨2, ?_, by norm_num, wf_free b 2 hwf hc2⟩
    have hs : scanFree b [0, 2, 6, 8] = some 2 := by
      simp [scanFree, List.findSome?, hc0, hc2]
    rw [hs, orElse_some_eval]
  | true =>
  cases hc6 : cellIsXO (cellAtN b 6) with
  | false =>
    refine ⟨6, ?_, by norm_num, wf_free b 6 hwf hc6⟩
    have hs : scanFree b [0, 2, 6, 8] = some 6 := by
      simp [scanFree, List.findSome?, hc0, hc2, hc6]
    rw [hs, orElse_some_eval]
  | true =>
  cases hc8 : cellIsXO (cellAtN b 8) with
  | false =>
    refine ⟨8, ?_, by norm_num, wf_free b 8 hwf hc8⟩
    have hs : scanFree b [0, 2, 6, 8] = some 8 := by
      simp [scanFree, List.findSome?, hc0, hc2, hc6, hc8]
    rw [hs, orElse_some_eval]
  | true =>
  have hcorners : scanFree b [0, 2, 6, 8] = none := by
    simp [scanFree, List.findSome?, hc0, hc2, hc6, hc8]
  rw [hcorners, orElse_none_eval]
  cases hc4 : cellIsXO (cellAtN b 4) with
  | false =>
    refine ⟨4, ?_, by norm_num, wf_free b 4 hwf hc4⟩
    rw [cellAtN_eval_4] at hc4
    rw [hc4]
    rfl
  | true =>
  have hcenter : (if cellIsXO (b 1 1) then none else some 4) = (none : Option Nat) := by
    rw [cellAtN_eval_4] at hc4
    rw [hc4]
    rfl
  rw [hcenter, orElse_none_eval]
  cases hc1 : cellIsXO (cellAtN b 1) with
  | false =>
    refine ⟨1, ?_, by norm_num, wf_free b 1 hwf hc1⟩
    simp [scanFree, List.findSome?, hc1]
  | true =>
  cases hc3 : cellIsXO (cellAtN b 3) with
  | false =>
    refine ⟨3, ?_, by norm_num, wf_free b 3 hwf hc3⟩
    simp [scanFree, List.findSome?, hc1, hc3]
  | true =>
  cases hc5 : cellIsXO (cellAtN b 5) with
  | false =>
    refine ⟨5, ?_, by norm_num, wf_free b 5 hwf hc5⟩
    simp [scanFree, List.findSome?, hc1, hc3, hc5]
  | true =>
  cases hc7 : cellIsXO (cellAtN b 7) with
  | false =>
    refine ⟨7, ?_, by norm_num, wf_free b 7 hwf hc7⟩
    simp [scanFree, List.findSome?, hc1, hc3, hc5, hc7]
  | true =>
  exfalso
  rw [cellAtN_eval_0] at hc0
  rw [cellAtN_eval_1] at hc1
  rw [cellAtN_eval_2] at hc2
  rw [cellAtN_eval_3] at hc3
  rw [cellAtN_eval_4] at hc4
  rw [cellAtN_eval_5] at hc5
  rw [cellAtN_eval_6] at hc6
  rw [cellAtN_eval_7] at hc7
  rw [cellAtN_eval_8] at hc8
  unfold is_tie at ht
  rw [hc0, hc1, hc2, hc3, hc4, hc5, hc6, hc7, hc8] at ht
  simp at ht

/-- C5 witness: the exhaustiveness theorem applied to the fresh board with
the human acting (the corner rule yields position 0). -/
theorem C5_witness :
    ∃ q, get_computer_move human initial_game_board computer = some q ∧ q < 9 ∧
      isMark (cellAtN initial_game_board q) = false :=
  C5_exhaustive human computer initial_game_board (Or.inl ⟨rfl, rfl⟩)
    (by decide) (by decide) (by decide) (by decide)

/-! ## C4: the block search never misses a blockable layout -/

theorem orElse_isSome_eval {α : Type} (a : Option α) (f : Unit → Option α) :
    (a.orElse f).isSome = (a.isSome || (f ()).isSome) := by
  cases a <;> rfl

/-- A line with two `m` cells and an empty third always fires its
`scan_line`: an empty cell never equals `Cell.mark om`, so the
`!= other_mark` tie-breaks cannot reject it. -/
theorem scan_line_block {m om : String} {c0 c1 c2 : Cell} {p0 p1 p2 : Nat}
    (h : twoAndEmpty m c0 c1 c2) :
    (scan_line m om c0 c1 c2 p0 p1 p2).isSome = true := by
  rcases h with ⟨h0, h1, h2⟩ | ⟨h0, h2, h1⟩ | ⟨h1, h2, h0⟩
  · obtain ⟨n, hn⟩ : ∃ n, c2 = Cell.num n := by
      cases c2 with
      | num n => exact ⟨n, rfl⟩
      | mark s => simp [isMark] at h2
    subst h0 h1 hn
    simp [scan_line]
  · obtain ⟨n, hn⟩ : ∃ n, c1 = Cell.num n := by
      cases c1 with
      | num n => exact ⟨n, rfl⟩
      | mark s => simp [isMark] at h1
    subst h0 h2 hn
    simp [scan_line]
  · obtain ⟨n, hn⟩ : ∃ n, c0 = Cell.num n := by
      cases c0 with
      | num n => exact ⟨n, rfl⟩
      | mark s => simp [isMark] at h0
    subst h1 h2 hn
    simp [scan_line]

/-- Whenever some line would give `m` an immediate win, the scan of
`find_winning_move` for the player with marker `m` returns a position. -/
theorem block_search_exhaustive (p : Player) (b : Board)
    (h : BlockExists p.marker b) : (find_winning_move p b).isSome = true := by
  obtain ⟨l, hl⟩ := h
  fin_cases l <;>
    simp only [lineTriple] at hl <;>
    simp [find_winning_move, orElse_isSome_eval, scan_line_block hl]

/-- C4 counterexample (the claim is false as stated): there is no board on
which a block exists yet `find_winning_move(other_player, board)` returns
`None` — the negation of the claimed existence. -/
theorem C4_counterexample :
    ¬ ∃ (b : Board) (p : Player), BlockExists p.marker b ∧
      find_winning_move p b = none := by
  rintro ⟨b, p, hbl, hnone⟩
  have hs := block_search_exhaustive p b hbl
  rw [hnone] at hs
  cases hs

/-- C4 (amended): the block rule of `get_computer_move` is exhaustive after
all: whenever the board contains a line with two opponent markers and an
empty third cell, `find_winning_move(other_player, board)` returns a
position (the `!= other_mark` tie-breaks never exclude an empty cell). -/
theorem C4_amended (p : Player) (b : Board) (h : BlockExists p.marker b) :
    (find_winning_move p b).isSome = true :=
  block_search_exhaustive p b h

/-- C4 witness: the amended theorem applied to the board where O holds cells
0 and 1 of the top row. -/
theorem C4_witness : (find_winning_move computer blockBoard).isSome = true :=
  C4_amended computer blockBoard (by decide)

/-! ## C6: grid invariant along reachable states -/

theorem cell_is_XO {c : Cell} {n : Nat}
    (h : c = Cell.num n ∨ c = Cell.mark "X" ∨ c = Cell.mark "O")
    (hm : isMark c = true) : c = Cell.mark "X" ∨ c = Cell.mark "O" := by
  rcases h with rfl | rfl | rfl
  · simp [isMark] at hm
  · exact Or.inl rfl
  · exact Or.inr rfl

/-- On an invariant-respecting board, the spec's "a line of three identical
markers exists" coincides with one of the two players having won
(unplayed placeholders are pairwise distinct, so an identical line is a
marker line, and its marker must be 'X' or 'O'). -/
theorem hasLine_iff_winner (b : Board) (hInv : GridInv b) :
    (∃ l, lineIdentical b l = true) ↔
      (is_winner human b = true ∨ is_winner computer b = true) := by
  constructor
  · rintro ⟨l, hl⟩
    fin_cases l <;>
      simp only [lineIdentical, lineTriple, Bool.and_eq_true, decide_eq_true_eq] at hl <;>
      obtain ⟨⟨hm, h01⟩, h12⟩ := hl <;>
      rcases cell_is_XO (hInv _ _) hm with hX | hX <;>
      first
      | (refine Or.inl ?_
         simp [is_winner, human, line_won, hX, h01.symm.trans hX,
           h12.symm.trans (h01.symm.trans hX)]
         done)
      | (refine Or.inr ?_
         simp [is_winner, computer, line_won, hX, h01.symm.trans hX,
           h12.symm.trans (h01.symm.trans hX)]
         done)
  · rintro (hw | hw) <;>
      unfold is_winner at hw <;>
      simp only [Bool.or_eq_true] at hw <;>
      rcases hw with (((((((h | h) | h) | h) | h) | h) | h) | h) <;>
      simp only [line_won, Bool.and_eq_true, decide_eq_true_eq] at h <;>
      obtain ⟨⟨e0, e1⟩, e2⟩ := h <;>
      first
      | (refine ⟨0, ?_⟩
         simp [lineIdentical, lineTriple, e0, e1, e2, isMark]
         done)
      | (refine ⟨1, ?_⟩
         simp [lineIdentical, lineTriple, e0, e1, e2, isMark]
         done)
      | (refine ⟨2, ?_⟩
         simp [lineIdentical, lineTriple, e0, e1, e2, isMark]
         done)
      | (refine ⟨3, ?_⟩
         simp [lineIdentical, lineTriple, e0, e1, e2, isMark]
         done)
      | (refine ⟨4, ?_⟩
         simp [lineIdentical, lineTriple, e0, e1, e2, isMark]
         done)
      | (refine ⟨5, ?_⟩
         simp [lineIdentical, lineTriple, e0, e1, e2, isMark]
         done)
      | (refine ⟨6, ?_⟩
         simp [lineIdentical, lineTriple, e0, e1, e2, isMark]
         done)
      | (refine ⟨7, ?_⟩
         simp [lineIdentical, lineTriple, e0, e1, e2, isMark]
         done)

theorem isMark_eq_cellIsXO {c : Cell} {n : Nat}
    (h : c = Cell.num n ∨ c = Cell.mark "X" ∨ c = Cell.mark "O") :
    isMark c = cellIsXO c := by
  rcases h with rfl | rfl | rfl <;> simp [isMark, cellIsXO]

/-- On an invariant-respecting board, "all 9 cells are filled" coincides
with the code's `is_tie`. -/
theorem full_iff_tie (b : Board) (hInv : GridInv b) : specFull b = is_tie b := by
  unfold specFull is_tie
  rw [isMark_eq_cellIsXO (hInv 0 0), isMark_eq_cellIsXO (hInv 0 1),
    isMark_eq_cellIsXO (hInv 0 2), isMark_eq_cellIsXO (hInv 1 0),
    isMark_eq_cellIsXO (hInv 1 1), isMark_eq_cellIsXO (hInv 1 2),
    isMark_eq_cellIsXO (hInv 2 0), isMark_eq_cellIsXO (hInv 2 1),
    isMark_eq_cellIsXO (hInv 2 2)]

/-- On an invariant-respecting board, `outcome` reads InProgress exactly
until a line of identical markers exists or the board is full. -/
theorem outcome_inProgress_iff (b : Board) (hInv : GridInv b) :
    outcome b = GameOutcome.inProgress ↔
      (specHasLine b = false ∧ specFull b = false) := by
  have hline : specHasLine b = true ↔
      (is_winner human b = true ∨ is_winner computer b = true) := by
    rw [specHasLine, decide_eq_true_eq]
    exact hasLine_iff_winner b hInv
  unfold outcome
  split_ifs with h1 h2 h3
  · have hsl : specHasLine b = true := hline.2 (Or.inl h1)
    simp [hsl]
  · have hsl : specHasLine b = true := hline.2 (Or.inr h2)
    simp [hsl]
  · have hsf : specFull b = true := by
      rw [full_iff_tie b hInv]
      exact h3
    simp [hsf]
  · have hsl : specHasLine b = false := by
      cases hc : specHasLine b with
      | false => rfl
      | true =>
        rcases hline.1 hc with hw | hw
        · exact absurd hw h1
        · exact absurd hw h2
    have hsf : specFull b = false := by
      rw [full_iff_tie b hInv]
      exact Bool.of_not_eq_true h3
    simp [hsl, hsf]

theorem mmb_preserves_inv (b : Board) (pos : Int) (m : String) (b2 : Board)
    (hm : m = "X" ∨ m = "O") (h : make_move_board b pos m = some b2)
    (hInv : GridInv b) : GridInv b2 := by
  unfold make_move_board at h
  cases hq : pyIdx3 (pos / 3) with
  | none => rw [hq] at h; cases h
  | some i =>
    rw [hq] at h
    injection h with h
    subst h
    intro r c
    unfold setCell
    by_cases hrc : r = i ∧ c = ⟨(pos % 3).toNat, by omega⟩
    · rw [if_pos hrc]
      rcases hm with rfl | rfl
      · exact Or.inr (Or.inl rfl)
      · exact Or.inr (Or.inr rfl)
    · rw [if_neg hrc]
      exact hInv r c

theorem make_move_preserves_inv (s : State) (pos : Int) (idx : Fin 2) (s2 : State)
    (h : make_move s pos idx = some s2) (hInv : GridInv s.board) :
    GridInv s2.board := by
  have hm : (players idx).marker = "X" ∨ (players idx).marker = "O" := by
    fin_cases idx
    · exact Or.inl rfl
    · exact Or.inr rfl
  unfold make_move at h
  cases hq : make_move_board s.board pos (players idx).marker with
  | none => rw [hq] at h; cases h
  | some b2 =>
    rw [hq] at h
    have hb2 : GridInv b2 := mmb_preserves_inv s.board pos (players idx).marker b2 hm hq hInv
    replace h : (if is_winner (players 0) b2 = true then some (State.mk b2 s.turn)
        else if is_winner (players 1) b2 = true then some (State.mk b2 s.turn)
        else if is_tie b2 = true then some (State.mk b2 s.turn)
        else some (State.mk b2 (if idx = 1 then 0 else 1))) = some s2 := h
    split_ifs at h <;> (injection h with h; subst h; exact hb2)

theorem pressed_preserves_inv (s : State) (p : Int) (s2 : State)
    (h : pressed s p = some s2) (hInv : GridInv s.board) : GridInv s2.board := by
  unfold pressed at h
  split_ifs at h with hge
  · injection h with h
    subst h
    exact hInv
  · cases hv : is_position_valid s.board p with
    | none => rw [hv] at h; cases h
    | some v =>
      rw [hv] at h
      cases v with
      | false =>
        injection h with h
        subst h
        exact hInv
      | true =>
        cases hm1 : make_move s p 0 with
        | none => rw [hm1] at h; cases h
        | some s1 =>
          rw [hm1] at h
          have hInv1 : GridInv s1.board := make_move_preserves_inv s p 0 s1 hm1 hInv
          replace h : (if game_has_ended s1.board = true then some s1
              else if s1.turn = 1 then
                (match get_computer_move (players 1) s1.board (players 0) with
                 | none => none
                 | some mv => make_move s1 (Int.ofNat mv) 1)
              else some s1) = some s2 := h
          split_ifs at h with hge1 ht1
          · injection h with h
            subst h
            exact hInv1
          · cases hcm : get_computer_move (players 1) s1.board (players 0) with
            | none => rw [hcm] at h; cases h
            | some mv =>
              rw [hcm] at h
              exact make_move_preserves_inv s1 (Int.ofNat mv) 1 s2 h hInv1
          · injection h with h
            subst h
            exact hInv1

theorem reachable_inv (s : State) (h : Reachable s) : GridInv s.board := by
  induction h with
  | init0 =>
    intro i j
    exact Or.inl rfl
  | init1 s hs =>
    have he : init_state1 = some ⟨setCell initial_game_board 0 0 (Cell.mark "O"), 0⟩ := by
      decide
    rw [he] at hs
    injection hs with hs
    subst hs
    decide
  | step s p s2 hr hp ih =>
    exact pressed_preserves_inv s p s2 hp ih

/-- C6: in every reachable state, the outcome reads InProgress exactly until
a line of three identical markers exists or all 9 cells are filled; and once
the game has ended every further click leaves the state exactly unchanged
(terminal states are absorbing, so a Win/Tie outcome never reverts). -/
theorem C6_temporal (s : State) (hs : Reachable s) :
    (outcome s.board = GameOutcome.inProgress ↔
      (specHasLine s.board = false ∧ specFull s.board = false)) ∧
    (game_has_ended s.board = true → ∀ p : Int, pressed s p = some s) := by
  have hInv : GridInv s.board := reachable_inv s hs
  refine ⟨outcome_inProgress_iff s.board hInv, ?_⟩
  intro hend p
  unfold pressed
  rw [if_pos hend]

/-- C6 witness: the theorem applied to the initial human-first state. -/
theorem C6_witness :
    (outcome initial_game_board = GameOutcome.inProgress ↔
      (specHasLine initial_game_board = false ∧ specFull initial_game_board = false)) ∧
    (game_has_ended initial_game_board = true →
      ∀ p : Int, pressed ⟨initial_game_board, 0⟩ p = some ⟨initial_game_board, 0⟩) :=
  C6_temporal ⟨initial_game_board, 0⟩ Reachable.init0

/-! ## C3: marker counting along legal play -/

/-- An accepted position decomposes `make_move_board` into a `setCell` on a
cell that is currently free. -/
theorem valid_decomp (b : Board) (p : Int) (hv : is_position_valid b p = some true) :
    ∃ i j : Fin 3, (∀ m, make_move_board b p m = some (setCell b i j (Cell.mark m))) ∧
      cellIsXO (b i j) = false := by
  unfold is_position_valid at hv
  cases hq : pyIdx3 (p / 3) with
  | none => rw [hq] at hv; cases hv
  | some i =>
    rw [hq] at hv
    injection hv with hv
    refine ⟨i, ⟨(p % 3).toNat, by omega⟩, ?_, ?_⟩
    · intro m
      unfold make_move_board
      rw [hq]
    · cases hx : cellIsXO (b i ⟨(p % 3).toNat, by omega⟩) with
      | false => rfl
      | true =>
        rw [hx] at hv
        simp at hv

theorem countMark_set_self (b : Board) (i j : Fin 3) (m : String)
    (h : b i j ≠ Cell.mark m) :
    countMark (setCell b i j (Cell.mark m)) m = countMark b m + 1 := by
  unfold countMark
  have hset : (Finset.univ.filter fun c : Fin 3 × Fin 3 =>
      setCell b i j (Cell.mark m) c.1 c.2 = Cell.mark m) =
      insert (i, j) (Finset.univ.filter fun c : Fin 3 × Fin 3 => b c.1 c.2 = Cell.mark m) := by
    ext ⟨r, c⟩
    simp only [Finset.mem_filter, Finset.mem_univ, true_and, Finset.mem_insert, Prod.mk.injEq]
    unfold setCell
    by_cases hrc : r = i ∧ c = j
    · rw [if_pos hrc]
      simp [hrc.1, hrc.2]
    · rw [if_neg hrc]
      constructor
      · exact fun hb => Or.inr hb
      · rintro (⟨rfl, rfl⟩ | hb)
        · exact absurd ⟨rfl, rfl⟩ hrc
        · exact hb
  rw [hset, Finset.card_insert_of_not_mem]
  simp only [Finset.mem_filter, Finset.mem_univ, true_and]
  exact h

theorem countMark_set_ne (b : Board) (i j : Fin 3) (m m2 : String)
    (hne : m2 ≠ m) (h : b i j ≠ Cell.mark m2) :
    countMark (setCell b i j (Cell.mark m)) m2 = countMark b m2 := by
  unfold countMark
  congr 1
  ext ⟨r, c⟩
  simp only [Finset.mem_filter, Finset.mem_univ, true_and]
  unfold setCell
  by_cases hrc : r = i ∧ c = j
  · rw [if_pos hrc]
    constructor
    · intro he
      exact absurd (Cell.mark.inj he).symm hne
    · intro he
      rw [hrc.1, hrc.2] at he
      exact absurd he h
  · rw [if_neg hrc]

theorem markerOf_ne_not (t : Bool) : markerOf (!t) ≠ markerOf t := by
  cases t <;> simp [markerOf]

/-- Along legal alternating play the side to move has placed either as many
markers as the opponent or one fewer. -/
theorem legal_play_balance (b : Board) (t : Bool) (h : LegalPlay b t) :
    countMark b (markerOf t) ≤ countMark b (markerOf (!t)) ∧
    countMark b (markerOf (!t)) ≤ countMark b (markerOf t) + 1 := by
  induction h with
  | start t =>
    have h0 : ∀ m, countMark initial_game_board m = 0 := by
      intro m
      unfold countMark
      rw [Finset.card_eq_zero, Finset.filter_eq_empty_iff]
      intro c _
      simp [initial_game_board]
    rw [h0, h0]
    omega
  | move b t p b2 hl hge hv hm ih =>
    obtain ⟨i, j, hmk, hfree⟩ := valid_decomp b p hv
    have hb2 : b2 = setCell b i j (Cell.mark (markerOf t)) := by
      have he := hmk (markerOf t)
      rw [hm] at he
      exact Option.some.inj he
    subst hb2
    have hfx : b i j ≠ Cell.mark "X" := by
      intro he
      rw [he] at hfree
      simp [cellIsXO] at hfree
    have hfo : b i j ≠ Cell.mark "O" := by
      intro he
      rw [he] at hfree
      simp [cellIsXO] at hfree
    have hmt : b i j ≠ Cell.mark (markerOf t) := by
      cases t
      · exact hfo
      · exact hfx
    have hmt2 : b i j ≠ Cell.mark (markerOf (!t)) := by
      cases t
      · exact hfx
      · exact hfo
    rw [Bool.not_not, countMark_set_self b i j (markerOf t) hmt,
      countMark_set_ne b i j (markerOf t) (markerOf (!t)) (markerOf_ne_not t) hmt2]
    omega

theorem countMark_sum_le (b : Board) (m1 m2 : String) (h : m1 ≠ m2) :
    countMark b m1 + countMark b m2 ≤ 9 := by
  unfold countMark
  have hdis : Disjoint
      (Finset.univ.filter fun c : Fin 3 × Fin 3 => b c.1 c.2 = Cell.mark m1)
      (Finset.univ.filter fun c : Fin 3 × Fin 3 => b c.1 c.2 = Cell.mark m2) := by
    rw [Finset.disjoint_left]
    intro a ha1 ha2
    simp only [Finset.mem_filter, Finset.mem_univ, true_and] at ha1 ha2
    rw [ha1] at ha2
    exact h (Cell.mark.inj ha2)
  calc (Finset.univ.filter fun c : Fin 3 × Fin 3 => b c.1 c.2 = Cell.mark m1).card +
        (Finset.univ.filter fun c : Fin 3 × Fin 3 => b c.1 c.2 = Cell.mark m2).card
      = ((Finset.univ.filter fun c : Fin 3 × Fin 3 => b c.1 c.2 = Cell.mark m1) ∪
         (Finset.univ.filter fun c : Fin 3 × Fin 3 => b c.1 c.2 = Cell.mark m2)).card :=
        (Finset.card_union_of_disjoint hdis).symm
    _ ≤ (Finset.univ : Finset (Fin 3 × Fin 3)).card :=
        Finset.card_le_card (Finset.subset_univ _)
    _ = 9 := by decide

/-- A line that becomes identical precisely through a `setCell` must contain
the written cell. -/
theorem line_touches (b : Board) (i j : Fin 3) (v : Cell) (l : Fin 8)
    (h2 : lineIdentical (setCell b i j v) l = true)
    (h1 : lineIdentical b l = false) : (i, j) ∈ lineSet l := by
  by_contra hni
  have hsame : ∀ r c : Fin 3, ((r, c) ∈ lineSet l) → setCell b i j v r c = b r c := by
    intro r c hrc
    unfold setCell
    rw [if_neg]
    rintro ⟨rfl, rfl⟩
    exact hni hrc
  fin_cases l
  · simp only [lineIdentical, lineTriple, Bool.and_eq_true, decide_eq_true_eq] at h2
    obtain ⟨⟨ha, hb⟩, hc⟩ := h2
    rw [hsame 0 0 (by decide)] at ha hb
    rw [hsame 0 1 (by decide)] at hb hc
    rw [hsame 0 2 (by decide)] at hc
    rw [hb, hc] at ha
    simp [lineIdentical, lineTriple, ha, hb, hc] at h1
  · simp only [lineIdentical, lineTriple, Bool.and_eq_true, decide_eq_true_eq] at h2
    obtain ⟨⟨ha, hb⟩, hc⟩ := h2
    rw [hsame 1 0 (by decide)] at ha hb
    rw [hsame 1 1 (by decide)] at hb hc
    rw [hsame 1 2 (by decide)] at hc
    rw [hb, hc] at ha
    simp [lineIdentical, lineTriple, ha, hb, hc] at h1
  · simp only [lineIdentical, lineTriple, Bool.and_eq_true, decide_eq_true_eq] at h2
    obtain ⟨⟨ha, hb⟩, hc⟩ := h2
    rw [hsame 2 0 (by decide)] at ha hb
    rw [hsame 2 1 (by decide)] at hb hc
    rw [hsame 2 2 (by decide)] at hc
    rw [hb, hc] at ha
    simp [lineIdentical, lineTriple, ha, hb, hc] at h1
  · simp only [lineIdentical, lineTriple, Bool.and_eq_true, decide_eq_true_eq] at h2
    obtain ⟨⟨ha, hb⟩, hc⟩ := h2
    rw [hsame 0 0 (by decide)] at ha hb
    rw [hsame 1 0 (by decide)] at hb hc
    rw [hsame 2 0 (by decide)] at hc
    rw [hb, hc] at ha
    simp [lineIdentical, lineTriple, ha, hb, hc] at h1
  · simp only [lineIdentical, lineTriple, Bool.and_eq_true, decide_eq_true_eq] at h2
    obtain ⟨⟨ha, hb⟩, hc⟩ := h2
    rw [hsame 0 1 (by decide)] at ha hb
    rw [hsame 1 1 (by decide)] at hb hc
    rw [hsame 2 1 (by decide)] at hc
    rw [hb, hc] at ha
    simp [lineIdentical, lineTriple, ha, hb, hc] at h1
  · simp only [lineIdentical, lineTriple, Bool.and_eq_true, decide_eq_true_eq] at h2
    obtain ⟨⟨ha, hb⟩, hc⟩ := h2
    rw [hsame 0 2 (by decide)] at ha hb
    rw [hsame 1 2 (by decide)] at hb hc
    rw [hsame 2 2 (by decide)] at hc
    rw [hb, hc] at ha
    simp [lineIdentical, lineTriple, ha, hb, hc] at h1
  · simp only [lineIdentical, lineTriple, Bool.and_eq_true, decide_eq_true_eq] at h2
    obtain ⟨⟨ha, hb⟩, hc⟩ := h2
    rw [hsame 0 0 (by decide)] at ha hb
    rw [hsame 1 1 (by decide)] at hb hc
    rw [hsame 2 2 (by decide)] at hc
    rw [hb, hc] at ha
    simp [lineIdentical, lineTriple, ha, hb, hc] at h1
  · simp only [lineIdentical, lineTriple, Bool.and_eq_true, decide_eq_true_eq] at h2
    obtain ⟨⟨ha, hb⟩, hc⟩ := h2
    rw [hsame 0 2 (by decide)] at ha hb
    rw [hsame 1 1 (by decide)] at hb hc
    rw [hsame 2 0 (by decide)] at hc
    rw [hb, hc] at ha
    simp [lineIdentical, lineTriple, ha, hb, hc] at h1

/-- All cells of an identical line hold equal values. -/
theorem line_all_value (b2 : Board) (l : Fin 8) (hid : lineIdentical b2 l = true)
    (q : Fin 3 × Fin 3) (hq : q ∈ lineSet l) (r : Fin 3 × Fin 3) (hr : r ∈ lineSet l) :
    b2 q.1 q.2 = b2 r.1 r.2 := by
  fin_cases l <;>
    (simp only [lineIdentical, lineTriple, Bool.and_eq_true, decide_eq_true_eq] at hid;
     obtain ⟨⟨hm, h01⟩, h12⟩ := hid;
     simp only [lineSet, lineTriple, Finset.mem_insert, Finset.mem_singleton] at hq hr;
     rcases hq with rfl | rfl | rfl <;> rcases hr with rfl | rfl | rfl <;>
       first
       | rfl
       | exact h01
       | exact h01.symm
       | exact h12
       | exact h12.symm
       | exact h01.trans h12
       | exact (h01.trans h12).symm)

/-- Any three pairwise distinct lines cover at least 6 distinct cells. -/
theorem three_lines_card : ∀ l1 l2 l3 : Fin 8, l1 ≠ l2 → l1 ≠ l3 → l2 ≠ l3 →
    6 ≤ (lineSet l1 ∪ lineSet l2 ∪ lineSet l3).card := by
  decide

/-- C3 (amended): a single legal move can complete up to two lines at once
(never three): every line completed by the move passes through the moved
cell and bears the mover's marker, and three such lines would require at
least six of the mover's markers on a board where legal alternation bounds
them by five. -/
theorem C3_amended (b : Board) (t : Bool) (p : Int) (b2 : Board)
    (hl : LegalPlay b t) (hge : game_has_ended b = false)
    (hv : is_position_valid b p = some true)
    (hm : make_move_board b p (markerOf t) = some b2) :
    numNewComplete b b2 ≤ 2 := by
  by_contra hgt
  rw [not_le] at hgt
  unfold numNewComplete at hgt
  obtain ⟨l1, l2, l3, hm1, hm2, hm3, h12, h13, h23⟩ := Finset.two_lt_card_iff.1 hgt
  simp only [Finset.mem_filter, Finset.mem_univ, true_and] at hm1 hm2 hm3
  obtain ⟨i, j, hmk, hfree⟩ := valid_decomp b p hv
  have hb2 : b2 = setCell b i j (Cell.mark (markerOf t)) := by
    have he := hmk (markerOf t)
    rw [hm] at he
    exact Option.some.inj he
  subst hb2
  have ht1 : (i, j) ∈ lineSet l1 := line_touches b i j _ l1 hm1.1 hm1.2
  have ht2 : (i, j) ∈ lineSet l2 := line_touches b i j _ l2 hm2.1 hm2.2
  have ht3 : (i, j) ∈ lineSet l3 := line_touches b i j _ l3 hm3.1 hm3.2
  have hbij : setCell b i j (Cell.mark (markerOf t)) i j = Cell.mark (markerOf t) := by
    simp [setCell]
  have hall : ∀ q ∈ lineSet l1 ∪ lineSet l2 ∪ lineSet l3,
      setCell b i j (Cell.mark (markerOf t)) q.1 q.2 = Cell.mark (markerOf t) := by
    intro q hq
    rcases Finset.mem_union.1 hq with hq12 | hq3
    · rcases Finset.mem_union.1 hq12 with hq1 | hq2
      · exact (line_all_value _ l1 hm1.1 q hq1 (i, j) ht1).trans hbij
      · exact (line_all_value _ l2 hm2.1 q hq2 (i, j) ht2).trans hbij
    · exact (line_all_value _ l3 hm3.1 q hq3 (i, j) ht3).trans hbij
  have hsub : (lineSet l1 ∪ lineSet l2 ∪ lineSet l3) ⊆
      Finset.univ.filter (fun c : Fin 3 × Fin 3 =>
        setCell b i j (Cell.mark (markerOf t)) c.1 c.2 = Cell.mark (markerOf t)) := by
    intro q hq
    simp only [Finset.mem_filter, Finset.mem_univ, true_and]
    exact hall q hq
  have hsub2 : (lineSet l1 ∪ lineSet l2 ∪ lineSet l3).erase (i, j) ⊆
      Finset.univ.filter (fun c : Fin 3 × Fin 3 =>
        b c.1 c.2 = Cell.mark (markerOf t)) := by
    intro q hq
    obtain ⟨hne, hqU⟩ := Finset.mem_erase.1 hq
    simp only [Finset.mem_filter, Finset.mem_univ, true_and]
    have hval := hall q hqU
    have hnij : ¬(q.1 = i ∧ q.2 = j) := by
      rintro ⟨e1, e2⟩
      exact hne (Prod.ext e1 e2)
    unfold setCell at hval
    rw [if_neg hnij] at hval
    exact hval
  have h5 : 5 ≤ countMark b (markerOf t) := by
    have hmemU : (i, j) ∈ lineSet l1 ∪ lineSet l2 ∪ lineSet l3 :=
      Finset.mem_union_left _ (Finset.mem_union_left _ ht1)
    have hc1 : 5 ≤ ((lineSet l1 ∪ lineSet l2 ∪ lineSet l3).erase (i, j)).card := by
      rw [Finset.card_erase_of_mem hmemU]
      have h6U := three_lines_card l1 l2 l3 h12 h13 h23
      omega
    exact le_trans hc1 (Finset.card_le_card hsub2)
  have hbal := legal_play_balance b t hl
  have hsum := countMark_sum_le b (markerOf t) (markerOf (!t)) (markerOf_ne_not t).symm
  omega

/-- C3 witness: the amended bound applied to X's opening move at cell 0 on
the fresh board. -/
theorem C3_witness :
    numNewComplete initial_game_board
      (setCell initial_game_board 0 0 (Cell.mark "X")) ≤ 2 :=
  C3_amended initial_game_board true 0
    (setCell initial_game_board 0 0 (Cell.mark "X"))
    (LegalPlay.start true) (by decide) (by decide) (by decide)

/-- C3 counterexample: after the legal alternating game X1, O4, X2, O5, X3,
O7, X6, O8 (no line complete, cell 0 free), X's legal move at position 0
completes two lines at once — the top row and the left column — refuting
"at most one line completes per move". -/
theorem C3_counterexample :
    LegalPlay cb8 true ∧ game_has_ended cb8 = false ∧
    is_position_valid cb8 0 = some true ∧
    make_move_board cb8 0 "X" = some cb9 ∧
    numNewComplete cb8 cb9 = 2 := by
  refine ⟨?_, by decide, by decide, by decide, by decide⟩
  have s0 : LegalPlay initial_game_board true := LegalPlay.start true
  have s1 : LegalPlay (setCell initial_game_board 0 1 (Cell.mark "X")) false :=
    LegalPlay.move initial_game_board true 1 _ s0 (by decide) (by decide) (by decide)
  have s2 : LegalPlay (setCell (setCell initial_game_board 0 1 (Cell.mark "X"))
      1 1 (Cell.mark "O")) true :=
    LegalPlay.move _ false 4 _ s1 (by decide) (by decide) (by decide)
  have s3 : LegalPlay (setCell (setCell (setCell initial_game_board 0 1 (Cell.mark "X"))
      1 1 (Cell.mark "O")) 0 2 (Cell.mark "X")) false :=
    LegalPlay.move _ true 2 _ s2 (by decide) (by decide) (by decide)
  have s4 : LegalPlay (setCell (setCell (setCell (setCell initial_game_board
      0 1 (Cell.mark "X")) 1 1 (Cell.mark "O")) 0 2 (Cell.mark "X"))
      1 2 (Cell.mark "O")) true :=
    LegalPlay.move _ false 5 _ s3 (by decide) (by decide) (by decide)
  have s5 : LegalPlay (setCell (setCell (setCell (setCell (setCell initial_game_board
      0 1 (Cell.mark "X")) 1 1 (Cell.mark "O")) 0 2 (Cell.mark "X"))
      1 2 (Cell.mark "O")) 1 0 (Cell.mark "X")) false :=
    LegalPlay.move _ true 3 _ s4 (by decide) (by decide) (by decide)
  have s6 : LegalPlay (setCell (setCell (setCell (setCell (setCell (setCell
      initial_game_board 0 1 (Cell.mark "X")) 1 1 (Cell.mark "O"))
      0 2 (Cell.mark "X")) 1 2 (Cell.mark "O")) 1 0 (Cell.mark "X"))
      2 1 (Cell.mark "O")) true :=
    LegalPlay.move _ false 7 _ s5 (by decide) (by decide) (by decide)
  have s7 : LegalPlay (setCell (setCell (setCell (setCell (setCell (setCell (setCell
      initial_game_board 0 1 (Cell.mark "X")) 1 1 (Cell.mark "O"))
      0 2 (Cell.mark "X")) 1 2 (Cell.mark "O")) 1 0 (Cell.mark "X"))
      2 1 (Cell.mark "O")) 2 0 (Cell.mark "X")) false :=
    LegalPlay.move _ true 6 _ s6 (by decide) (by decide) (by decide)
  have s8 : LegalPlay cb8 true :=
    LegalPlay.move _ false 8 _ s7 (by decide) (by decide) (by decide)
  exact s8

/-- C9 witness: clicking the already-occupied cell 0 of the rule-priority
grid mid-game leaves the state unchanged. -/
theorem C9_witness : pressed ⟨ruleGrid, 0⟩ 0 = some ⟨ruleGrid, 0⟩ :=
  C9_noop ⟨ruleGrid, 0⟩ 0 (Or.inr ⟨by norm_num, by norm_num, by decide⟩)
